import Mathlib

/-!
# Verification of the CHERI-Microkit monitor

Shallow embedding of the Microkit monitor (`src/monitor/src/main.c` together
with the utility code providing `fail` and `sel4_strerror`) and proofs about
its invocation executor, script runner, untyped-manifest checker, fault
decoders and fault-monitor loop.

Machine words (`seL4_Word`) are modelled as `Nat`; where the C code can wrap
(64-bit unsigned addition/multiplication) results are reduced modulo `2^64`
via `w64`.  Offsets into the invocation buffers are C `unsigned int`; the
buffers are far smaller than `2^32` words so they are modelled as plain `Nat`.
-/

/-- The constant `2^64`, the modulus of `seL4_Word` arithmetic. -/
def W64 : Nat := 18446744073709551616

/-- Reduction of a machine-word computation modulo `2^64`. -/
def w64 (x : Nat) : Nat := x % W64

/-! ## seL4_MessageInfo bitfield accessors

The seL4 message info word packs, from least significant bit:
`length` (7 bits), `extraCaps` (2 bits), `capsUnwrapped` (3 bits),
`label` (52 bits).  These mirror the generated seL4 bitfield getters
used by `main.c`. -/

/-- Getter `seL4_MessageInfo_get_length`: bits 0-6 of the message info word. -/
def msg_length (w : Nat) : Nat := w &&& 0x7f

/-- Getter `seL4_MessageInfo_get_extraCaps`: bits 7-8 of the message info word. -/
def msg_extraCaps (w : Nat) : Nat := (w >>> 7) &&& 0x3

/-- Getter `seL4_MessageInfo_get_capsUnwrapped`: bits 9-11 of the message info word. -/
def msg_capsUnwrapped (w : Nat) : Nat := (w >>> 9) &&& 0x7

/-- Getter `seL4_MessageInfo_get_label`: bits 12-63 of the message info word. -/
def msg_label (w : Nat) : Nat := (w >>> 12) &&& 0xfffffffffffff

/-- Constant `seL4_NoError` (error code 0). -/
def seL4_NoError : Nat := 0

/-- Constant `seL4_Fault_NullFault` (fault label 0). -/
def seL4_Fault_NullFault : Nat := 0

/-- Function `sel4_strerror` from the monitor utility code: maps an seL4 error code
to its symbolic name, with a defined fallback for unknown codes. -/
def sel4_strerror (err : Nat) : String :=
  match err with
  | 0 => "seL4_NoError"
  | 1 => "seL4_InvalidArgument"
  | 2 => "seL4_InvalidCapability"
  | 3 => "seL4_IllegalOperation"
  | 4 => "seL4_RangeError"
  | 5 => "seL4_AlignmentError"
  | 6 => "seL4_FailedLookup"
  | 7 => "seL4_TruncatedMessage"
  | 8 => "seL4_DeleteFirst"
  | 9 => "seL4_RevokeFirst"
  | 10 => "seL4_NotEnoughMemory"
  | _ => "<invalid seL4 error>"

/-! ## Fault decoder tables

Each `switch` in the C decoders is embedded as a `match` with one literal
pattern per `case` in source order, whose final wildcard arm is the switch's
`default` (or fall-through) fallback. -/

/-- Decoder `riscv_fsr_cheri_type_to_string`: CHERI fault-type decoder (RISC-V). -/
def riscv_fsr_cheri_type_to_string (cheri_type : Nat) : String :=
  match cheri_type with
  | 0 => "CHERI instruction fetch fault"
  | 1 => "CHERI data fault due to load, store or AMO"
  | 2 => "CHERI jump or branch fault"
  | _ => "Unexpected CHERI fault type"

/-- Decoder `riscv_fsr_to_string`: RISC-V `scause` decoder.  The `cheri` flag models
`CONFIG_HAVE_CHERI`; when set and bit 11 of the FSR is set, the low nibble is
decoded as a CHERI violation instead. -/
def riscv_fsr_to_string (cheri : Bool) (fsr : Nat) : String :=
  if cheri ∧ (fsr >>> 11) &&& 1 = 1 then
    match fsr &&& 0xf with
    | 0 => "Tag violation"
    | 1 => "Seal violation"
    | 2 => "Permission violation"
    | 3 => "Invalid address violation"
    | 4 => "Bounds violation"
    | _ => "Unexpected CHERI fault"
  else
    match fsr with
    | 0 => "Instruction address misaligned"
    | 1 => "Instruction access fault"
    | 2 => "Illegal instruction"
    | 3 => "Breakpoint"
    | 4 => "Load address misaligned"
    | 5 => "Load access fault"
    | 6 => "Store/AMO address misaligned"
    | 7 => "Store/AMO access fault"
    | 8 => "Environment call from U-mode"
    | 9 => "Environment call from S-mode"
    | 12 => "Instruction page fault"
    | 13 => "Load page fault"
    | 15 => "Store/AMO page fault"
    | 18 => "Software check"
    | 19 => "Hardware error"
    | _ => "<Unexpected FSR>"

/-- The FSR codes with an entry in the non-CHERI `riscv_fsr_to_string` table. -/
def riscv_fsr_known : List Nat := [0, 1, 2, 3, 4, 5, 6, 7, 8, 9, 12, 13, 15, 18, 19]

/-- Decoder `ec_to_string`: AArch64 exception-class decoder. -/
def ec_to_string (ec : Nat) : String :=
  match ec with
  | 0 => "Unknown reason"
  | 1 => "Trapped WFI or WFE instruction execution"
  | 3 => "Trapped MCR or MRC access with (coproc==0b1111) this is not reported using EC 0b000000"
  | 4 => "Trapped MCRR or MRRC access with (coproc==0b1111) this is not reported using EC 0b000000"
  | 5 => "Trapped MCR or MRC access with (coproc==0b1110)"
  | 6 => "Trapped LDC or STC access"
  | 7 => "Access to SVC, Advanced SIMD or floating-point functionality trapped"
  | 12 => "Trapped MRRC access with (coproc==0b1110)"
  | 13 => "Branch Target Exception"
  | 17 => "SVC instruction execution in AArch32 state"
  | 21 => "SVC instruction execution in AArch64 state"
  | 24 => "Trapped MSR, MRS or System instruction exuection in AArch64 state, this is not reported using EC 0xb000000, 0b000001 or 0b000111"
  | 25 => "Access to SVE functionality trapped"
  | 28 => "Exception from a Pointer Authentication instruction authentication failure"
  | 32 => "Instruction Abort from a lower Exception level"
  | 33 => "Instruction Abort taken without a change in Exception level"
  | 34 => "PC alignment fault exception"
  | 36 => "Data Abort from a lower Exception level"
  | 37 => "Data Abort taken without a change in Exception level"
  | 38 => "SP alignment faultr exception"
  | 40 => "Trapped floating-point exception taken from AArch32 state"
  | 44 => "Trapped floating-point exception taken from AArch64 state"
  | 47 => "SError interrupt"
  | 48 => "Breakpoint exception from a lower Exception level"
  | 49 => "Breakpoint exception taken without a change in Exception level"
  | 50 => "Software Step exception from a lower Exception level"
  | 51 => "Software Step exception taken without a change in Exception level"
  | 52 => "Watchpoint exception from a lower Exception level"
  | 53 => "Watchpoint exception taken without a change in Exception level"
  | 56 => "BKPT instruction execution in AArch32 state"
  | 60 => "BRK instruction execution in AArch64 state"
  | _ => "<invalid EC>"

/-- The exception-class codes with an entry in the `ec_to_string` table. -/
def ec_known : List Nat :=
  [0, 1, 3, 4, 5, 6, 7, 12, 13, 17, 21, 24, 25, 28, 32, 33, 34, 36, 37, 38,
   40, 44, 47, 48, 49, 50, 51, 52, 53, 56, 60]

/-- Decoder `data_abort_dfsc_to_string`: AArch64 data-abort fault-status decoder. -/
def data_abort_dfsc_to_string (dfsc : Nat) : String :=
  match dfsc with
  | 0x00 => "address size fault, level 0"
  | 0x01 => "address size fault, level 1"
  | 0x02 => "address size fault, level 2"
  | 0x03 => "address size fault, level 3"
  | 0x04 => "translation fault, level 0"
  | 0x05 => "translation fault, level 1"
  | 0x06 => "translation fault, level 2"
  | 0x07 => "translation fault, level 3"
  | 0x09 => "access flag fault, level 1"
  | 0x0a => "access flag fault, level 2"
  | 0x0b => "access flag fault, level 3"
  | 0x0d => "permission fault, level 1"
  | 0x0e => "permission fault, level 2"
  | 0x0f => "permission fault, level 3"
  | 0x10 => "synchronuos external abort"
  | 0x11 => "synchronous tag check fault"
  | 0x14 => "synchronous external abort, level 0"
  | 0x15 => "synchronous external abort, level 1"
  | 0x16 => "synchronous external abort, level 2"
  | 0x17 => "synchronous external abort, level 3"
  | 0x18 => "syncrhonous partity or ECC error"
  | 0x1c => "syncrhonous partity or ECC error, level 0"
  | 0x1d => "syncrhonous partity or ECC error, level 1"
  | 0x1e => "syncrhonous partity or ECC error, level 2"
  | 0x1f => "syncrhonous partity or ECC error, level 3"
  | 0x21 => "alignment fault"
  | 0x30 => "tlb conflict abort"
  | 0x31 => "unsupported atomic hardware update fault"
  | _ => "<unexpected DFSC>"

/-- The DFSC codes with an entry in the `data_abort_dfsc_to_string` table. -/
def dfsc_known : List Nat :=
  [0x00, 0x01, 0x02, 0x03, 0x04, 0x05, 0x06, 0x07, 0x09, 0x0a, 0x0b, 0x0d,
   0x0e, 0x0f, 0x10, 0x11, 0x14, 0x15, 0x16, 0x17, 0x18, 0x1c, 0x1d, 0x1e,
   0x1f, 0x21, 0x30, 0x31]

/-- Decoder `usban_code_to_string`: the UBSAN check-code decoder (ARM hypervisor
builds).  Codes follow the `UBSAN_CHECKS` enum, `UBSAN_ADD_OVERFLOW = 0`
through `UBSAN_VLA_BOUND_NOT_POSITIVE = 24`. -/
def usban_code_to_string (code : Nat) : String :=
  match code with
  | 0 => "add overflow"
  | 1 => "builtin unreachable"
  | 2 => "control-flow-integrity check fail"
  | 3 => "division remainder overflow"
  | 4 => "dynamic type cache miss"
  | 5 => "float case overflow"
  | 6 => "function type mismatch"
  | 7 => "implicit conversion"
  | 8 => "invalid builtin"
  | 9 => "invalid objc cast"
  | 10 => "load invalid value"
  | 11 => "missing return"
  | 12 => "multiplication overflow"
  | 13 => "negate overflow"
  | 14 => "nullability argument"
  | 15 => "nullability return"
  | 16 => "non-null argument"
  | 17 => "non-null return"
  | 18 => "out of bounds access"
  | 19 => "pointer overflow"
  | 20 => "shift out of bounds"
  | 21 => "subtraction overflow"
  | 22 => "type mismatch"
  | 23 => "alignment assumption"
  | 24 => "variable-length-array bound not positive"
  | _ => "unknown reason"

/-! ## Untyped-memory manifest checker -/

/-- One untyped region record, `struct region` in `main.c` (and, with the
field names `paddr`/`sizeBits`/`isDevice`, one `seL4_UntypedDesc` of the
kernel boot info). -/
structure UntypedRegion where
  paddr : Nat
  size_bits : Nat
  is_device : Nat
deriving DecidableEq

/-- Model of `struct untyped_info`: the build-tool-embedded manifest.  The C array
`regions[MAX_UNTYPED_REGIONS]` is modelled as a total function; the checker
only reads indices below `cap_end - cap_start`. -/
structure UntypedInfo where
  cap_start : Nat
  cap_end : Nat
  regions : Nat → UntypedRegion

/-- The part of `seL4_BootInfo` read by the checker: the `untyped` slot
region and the `untypedList` descriptors. -/
structure BootInfo where
  untyped_start : Nat
  untyped_end : Nat
  untypedList : Nat → UntypedRegion

/-- The region-comparison loop of `check_untypeds_match`: checks indices
`i, i+1, ..., n-1`, returning `false` at the first field mismatch. -/
def check_untypeds_regions (ui : UntypedInfo) (bi : BootInfo) (i n : Nat) : Bool :=
  if i < n then
    if (ui.regions i).paddr ≠ (bi.untypedList i).paddr then false
    else if (ui.regions i).size_bits ≠ (bi.untypedList i).size_bits then false
    else if (ui.regions i).is_device ≠ (bi.untypedList i).is_device then false
    else check_untypeds_regions ui bi (i + 1) n
  else true
termination_by n - i

/-- Function `check_untypeds_match` from `main.c`.  The loop bound is the C unsigned
subtraction `cap_end - cap_start`, which agrees with `Nat` truncated
subtraction whenever `cap_start ≤ cap_end` (the only case in which the C
code is well defined, its `regions` array having `cap_end - cap_start`
meaningful entries). -/
def check_untypeds_match (ui : UntypedInfo) (bi : BootInfo) : Bool :=
  if ui.cap_start ≠ bi.untyped_start then false
  else if ui.cap_end ≠ bi.untyped_end then false
  else check_untypeds_regions ui bi 0 (ui.cap_end - ui.cap_start)

/-! ## Invocation executor (`perform_invocation`)

An invocation stream is modelled as a total function `data : Nat → Nat` from
word offsets to word values (the C `seL4_Word *invocation_data`).  The kernel
is modelled as an oracle mapping each issued call to the result label of the
reply message info (`seL4_MessageInfo_get_label(out_tag)`); `0` is
`seL4_NoError`. -/

/-- One issued kernel call: the capability pointer passed to
`seL4_CallWithMRs`, the message info word (`tag.words[0]`), and the values
loaded into the capability transfer slots (`seL4_SetCap j`) and message
registers (mr0-mr3 latched into registers plus `seL4_SetMR` for the rest). -/
structure KernelCall where
  service : Nat
  tag : Nat
  caps : List Nat
  mrs : List Nat
deriving DecidableEq

/-- The record header fields and derived offsets computed at the top of
`perform_invocation`.  When `iterations = 1` the C code leaves
`service_incr`, `cap_incr_offset` and `mr_incr_offset` uninitialised and
never reads them; here they are set to `0` and likewise never read. -/
structure ParsedInv where
  cmd : Nat
  iterations : Nat
  tag0 : Nat
  service : Nat
  capCount : Nat
  mrCount : Nat
  capOffset : Nat
  mrOffset : Nat
  serviceIncr : Nat
  capIncrOffset : Nat
  mrIncrOffset : Nat
  nextOffset : Nat

/-- Parsing of one invocation record at `offset`, following
`perform_invocation` lines 538-569 of `main.c`:
`iterations = (cmd >> 32) + 1`, `tag0 = cmd & 0xffffffff`,
`cap_count`/`mr_count` from the message info, the stride block present
exactly when `iterations > 1`. -/
def parse_invocation (data : Nat → Nat) (offset : Nat) : ParsedInv :=
  let cmd := data offset
  let iterations := (cmd >>> 32) + 1
  let tag0 := cmd &&& 0xffffffff
  let service := data (offset + 1)
  let capCount := msg_extraCaps tag0
  let mrCount := msg_length tag0
  let capOffset := offset + 2
  let mrOffset := capOffset + capCount
  { cmd := cmd, iterations := iterations, tag0 := tag0, service := service,
    capCount := capCount, mrCount := mrCount,
    capOffset := capOffset, mrOffset := mrOffset,
    serviceIncr := if 1 < iterations then data (mrOffset + mrCount) else 0,
    capIncrOffset := if 1 < iterations then mrOffset + mrCount + 1 else 0,
    mrIncrOffset := if 1 < iterations then mrOffset + mrCount + 1 + capCount else 0,
    nextOffset := if 1 < iterations then mrOffset + mrCount + 1 + capCount + mrCount
      else mrOffset + mrCount }

/-- The call issued by iteration `i` of the record at `offset`: target is
`service` for `i = 0` and `service + service_incr*i` (wrapping) for `i > 0`,
and likewise for each capability slot and message register value. -/
def invocation_call (data : Nat → Nat) (offset i : Nat) : KernelCall :=
  let p := parse_invocation data offset
  { service := if 0 < i then w64 (p.service + p.serviceIncr * i) else p.service
    tag := p.tag0
    caps := (List.range p.capCount).map fun j =>
      if 0 < i then w64 (data (p.capOffset + j) + data (p.capIncrOffset + j) * i)
      else data (p.capOffset + j)
    mrs := (List.range p.mrCount).map fun j =>
      if 0 < i then w64 (data (p.mrOffset + j) + data (p.mrIncrOffset + j) * i)
      else data (p.mrOffset + j) }

/-- The iteration loop of `perform_invocation`: issue the calls for
iterations `i, i+1, ...` (`n` of them).  Returns the list of calls actually
issued and, if some call's result label was not `seL4_NoError`, the first
such result together with its iteration index (the C code prints the
diagnostic and invokes `fail`, which loops forever, at that point). -/
def run_calls (oracle : KernelCall → Nat) (call : Nat → KernelCall) :
    Nat → Nat → List KernelCall × Option (Nat × Nat)
  | _, 0 => ([], none)
  | i, n + 1 =>
    let c := call i
    let r := oracle c
    if r ≠ 0 then ([c], some (r, i))
    else
      let rest := run_calls oracle call (i + 1) n
      (c :: rest.1, rest.2)

/-- Outcome of executing one invocation record.  `ok` returns the offset of
the next record.  `failUnwrapped` is the `fail` on a tag with unwrapped
capabilities; `failCall` is the `fail` after a kernel call returned the
non-success label `code`, with the diagnostic's symbolic error name,
top-level invocation index and iteration sub-index.  `fail` never returns
(it prints and then spins in `for (;;) {}`), so both failure outcomes are
terminal. -/
inductive InvOutcome where
  | ok (nextOffset : Nat)
  | failUnwrapped
  | failCall (code : Nat) (name : String) (idx iter : Nat)
deriving DecidableEq

/-- Result of `perform_invocation`: the kernel calls issued for this record,
in order, and the outcome. -/
structure InvResult where
  calls : List KernelCall
  outcome : InvOutcome
deriving DecidableEq

/-- Function `perform_invocation(invocation_data, offset, idx)` from `main.c`:
parse the record, `fail` if the tag reports unwrapped capabilities (before
issuing any call and before writing any transfer slot), otherwise issue
the `iterations` calls, stopping at the first non-success result. -/
def perform_invocation (oracle : KernelCall → Nat) (data : Nat → Nat)
    (offset idx : Nat) : InvResult :=
  let p := parse_invocation data offset
  if msg_capsUnwrapped p.tag0 ≠ 0 then
    { calls := [], outcome := .failUnwrapped }
  else
    let r := run_calls oracle (invocation_call data offset) 0 p.iterations
    match r.2 with
    | none => { calls := r.1, outcome := .ok p.nextOffset }
    | some ci => { calls := r.1, outcome := .failCall ci.1 (sel4_strerror ci.1) idx ci.2 }

/-! ## Script runner (the invocation loops of `main`) -/

/-- Outcome of running a sequence of invocation records: either the loop
completed and `offset` holds the final value, or some record hit a fatal
`fail` (which never returns). -/
inductive RunOutcome where
  | done (finalOffset : Nat)
  | haltedUnwrapped (idx : Nat)
  | haltedCall (code : Nat) (name : String) (idx iter : Nat)
deriving DecidableEq

/-- Result of the script runner: all kernel calls issued, in order, and the
outcome. -/
structure RunResult where
  calls : List KernelCall
  outcome : RunOutcome
deriving DecidableEq

/-- The script-runner loop of `main`:
`for (idx = 0; idx < count; idx++) offset = perform_invocation(data, offset, idx);`
starting from a given `offset` and `idx`, executing `count` records.  A
record that hits `fail` stops the run (the C `fail` loops forever). -/
def run_invocations (oracle : KernelCall → Nat) (data : Nat → Nat) :
    Nat → Nat → Nat → RunResult
  | offset, _, 0 => { calls := [], outcome := .done offset }
  | offset, idx, count + 1 =>
    let r := perform_invocation oracle data offset idx
    match r.outcome with
    | .ok next =>
      let rest := run_invocations oracle data next (idx + 1) count
      { calls := r.calls ++ rest.calls, outcome := rest.outcome }
    | .failUnwrapped => { calls := r.calls, outcome := .haltedUnwrapped idx }
    | .failCall code name i t => { calls := r.calls, outcome := .haltedCall code name i t }

/-- The starting offset of the `k`-th record (`offsetAfter data offset k`
is the offset after consuming `k` records starting at `offset`). -/
def offsetAfter (data : Nat → Nat) (offset : Nat) : Nat → Nat
  | 0 => offset
  | k + 1 => offsetAfter data (parse_invocation data offset).nextOffset k

/-- The size in words of the record at `offset`: header and target words,
`cap_count` capability words, `mr_count` message words, plus the stride
block (target stride, capability strides, message strides) iff the record
is iterated. -/
def record_size (data : Nat → Nat) (offset : Nat) : Nat :=
  let p := parse_invocation data offset
  2 + p.capCount + p.mrCount + (if 1 < p.iterations then 1 + p.capCount + p.mrCount else 0)

/-! ## Fault-monitor loop (`monitor`)

One iteration of the `for (;;)` loop in `monitor()` is modelled as a step
function on the received `(label, badge)` pair.  The global component
registry arrays are collected into `MonitorEnv`; the results of the seL4
calls made during the iteration come from `MonitorOracle`.  The C arrays
have `MAX_PDS = 64` entries; they are modelled as total functions, and the
index used for the unconditional `pd_tcbs[badge]` read is recorded in the
step result (`tcbReadIndex`) so that out-of-bounds accesses are visible. -/

/-- Constant `MAX_PDS` from `main.c` (also the claim texts' MAX_COMPONENTS). -/
def MAX_PDS : Nat := 64

/-- The number of elements of the global array `seL4_Word pd_tcbs[MAX_PDS]`:
indices `≥ pd_tcbs_len` are out of bounds. -/
def pd_tcbs_len : Nat := 64

/-- The component registry globals read by the monitor loop.  `pd_names b`
is the name string of badge `b`; the C validity test `pd_names[badge][0] != 0`
is the test that this string is nonempty. -/
structure MonitorEnv where
  pd_tcbs : Nat → Nat
  scheduling_contexts : Nat → Nat
  notification_caps : Nat → Nat
  pd_names : Nat → String
  pd_stack_addrs : Nat → Nat

/-- Result labels of the seL4 calls one loop iteration can make
(`0` = `seL4_NoError`).  `unbindResult` is for
`seL4_SchedContext_UnbindObject`, `bindResult` for `seL4_SchedContext_Bind`,
`readRegsResult` for `seL4_TCB_ReadRegisters`. -/
structure MonitorOracle where
  unbindResult : Nat
  bindResult : Nat
  readRegsResult : Nat

/-- How one iteration of the monitor loop ends: back to the blocking
`seL4_Recv` (`next`), or in `fail`, which prints and then loops forever
(`halted`). -/
inductive MonitorOutcome where
  | next
  | halted (msg : String)
deriving DecidableEq

/-- Observable behaviour of one iteration of the monitor loop. -/
structure MonitorStep where
  /-- Index of the `pd_tcbs[badge]` read performed immediately after
  `seL4_Recv`, before any validation of the badge. -/
  tcbReadIndex : Nat
  /-- `some (sc, tcb)` iff `seL4_SchedContext_UnbindObject(sc, tcb)` was issued. -/
  unbindIssued : Option (Nat × Nat)
  /-- `some (sc, ntfn)` iff `seL4_SchedContext_Bind(sc, ntfn)` was issued. -/
  bindIssued : Option (Nat × Nat)
  /-- Whether `seL4_TCB_ReadRegisters` was invoked during the iteration. -/
  readRegistersAttempted : Bool
  /-- The key log lines of the iteration (hex dumps and the per-fault-kind
  decode output elided). -/
  log : List String
  outcome : MonitorOutcome
deriving DecidableEq

/-- One iteration of the `monitor()` loop, lines 1062-1218 of `main.c`:
receive `(label, badge)`, read `pd_tcbs[badge]`, take the passivation path
when `label == seL4_Fault_NullFault && badge < MAX_PDS`, otherwise report
the fault, `fail` on an invalid badge, read the faulting thread's
registers (`fail` if that fails), print them, decode the fault by `label`
(every branch of that `switch` just prints), and loop.  The passivation
path issues the unbind and bind calls and logs the bind outcome; the C
code overwrites the unbind call's error with the bind call's, so only the
latter is tested. -/
def monitor_step (env : MonitorEnv) (orc : MonitorOracle)
    (label badge : Nat) : MonitorStep :=
  let tcb_cap := env.pd_tcbs badge
  if label = seL4_Fault_NullFault ∧ badge < MAX_PDS then
    { tcbReadIndex := badge
      unbindIssued := some (env.scheduling_contexts badge, tcb_cap)
      bindIssued := some (env.scheduling_contexts badge, env.notification_caps badge)
      readRegistersAttempted := false
      log := if orc.bindResult ≠ seL4_NoError then
          ["MON|ERROR: could not bind scheduling context to notification object"]
        else
          ["MON|INFO: PD " ++ env.pd_names badge ++ " is now passive!"]
      outcome := .next }
  else if badge < MAX_PDS ∧ env.pd_names badge ≠ "" then
    if orc.readRegsResult ≠ seL4_NoError then
      { tcbReadIndex := badge, unbindIssued := none, bindIssued := none
        readRegistersAttempted := true
        log := ["MON|ERROR: received message", "MON|ERROR: faulting PD: " ++ env.pd_names badge]
        outcome := .halted "error reading registers" }
    else
      { tcbReadIndex := badge, unbindIssued := none, bindIssued := none
        readRegistersAttempted := true
        log := ["MON|ERROR: received message", "MON|ERROR: faulting PD: " ++ env.pd_names badge]
        outcome := .next }
  else
    { tcbReadIndex := badge, unbindIssued := none, bindIssued := none
      readRegistersAttempted := false
      log := ["MON|ERROR: received message"]
      outcome := .halted "MON|ERROR: unknown/invalid badge" }

/-! ## Executor lemmas -/

theorem run_calls_success (oracle : KernelCall → Nat) (call : Nat → KernelCall) :
    ∀ n i, (∀ s, i ≤ s → s < i + n → oracle (call s) = 0) →
      run_calls oracle call i n = ((List.range' i n).map call, none) := by
  intro n
  induction n with
  | zero => intro i _; rfl
  | succ n ih =>
    intro i h
    have h0 : oracle (call i) = 0 := h i le_rfl (by omega)
    have hrec := ih (i + 1) (fun s hs1 hs2 => h s (by omega) (by omega))
    simp only [run_calls, h0, ne_eq, not_true_eq_false, if_false, hrec,
      List.range'_succ, List.map_cons]

theorem run_calls_first_fail (oracle : KernelCall → Nat) (call : Nat → KernelCall) :
    ∀ n i t, i ≤ t → t < i + n →
      (∀ s, i ≤ s → s < t → oracle (call s) = 0) → oracle (call t) ≠ 0 →
      run_calls oracle call i n =
        ((List.range' i (t + 1 - i)).map call, some (oracle (call t), t)) := by
  intro n
  induction n with
  | zero => intro i t h1 h2; omega
  | succ n ih =>
    intro i t h1 h2 hpre hfail
    by_cases hit : i = t
    · subst hit
      simp only [run_calls, if_pos hfail]
      have : i + 1 - i = 1 := by omega
      rw [this, List.range'_one, List.map_singleton]
    · have h0 : oracle (call i) = 0 := hpre i le_rfl (by omega)
      have hrec := ih (i + 1) t (by omega) (by omega)
        (fun s hs1 hs2 => hpre s (by omega) hs2) hfail
      simp only [run_calls, h0, ne_eq, not_true_eq_false, if_false, hrec]
      have hsz : t + 1 - i = (t + 1 - (i + 1)) + 1 := by omega
      rw [hsz, List.range'_succ, List.map_cons]

theorem parse_invocation_iterations (data : Nat → Nat) (offset : Nat) :
    (parse_invocation data offset).iterations = (data offset >>> 32) + 1 := rfl

theorem parse_invocation_tag0 (data : Nat → Nat) (offset : Nat) :
    (parse_invocation data offset).tag0 = data offset &&& 0xffffffff := rfl

theorem parse_invocation_service (data : Nat → Nat) (offset : Nat) :
    (parse_invocation data offset).service = data (offset + 1) := rfl

theorem parse_invocation_capOffset (data : Nat → Nat) (offset : Nat) :
    (parse_invocation data offset).capOffset = offset + 2 := rfl

theorem parse_invocation_mrOffset (data : Nat → Nat) (offset : Nat) :
    (parse_invocation data offset).mrOffset = offset + 2 + (parse_invocation data offset).capCount := rfl

/-- The next-record offset is the current offset plus the record's size. -/
theorem parse_invocation_nextOffset (data : Nat → Nat) (offset : Nat) :
    (parse_invocation data offset).nextOffset = offset + record_size data offset := by
  simp only [parse_invocation, record_size]
  split <;> omega

/-- The record size spelt with the claim's word counts. -/
theorem record_size_eq (data : Nat → Nat) (offset : Nat) :
    record_size data offset =
      2 + (parse_invocation data offset).capCount + (parse_invocation data offset).mrCount +
        (if 1 < (parse_invocation data offset).iterations then
          1 + (parse_invocation data offset).capCount + (parse_invocation data offset).mrCount
        else 0) := rfl

theorem record_size_ge (data : Nat → Nat) (offset : Nat) :
    2 ≤ record_size data offset := by
  simp only [record_size]
  split <;> omega

theorem record_size_iterated (data : Nat → Nat) (offset : Nat)
    (h : 1 < (parse_invocation data offset).iterations) :
    record_size data offset =
      2 + (parse_invocation data offset).capCount + (parse_invocation data offset).mrCount + 1 +
        (parse_invocation data offset).capCount + (parse_invocation data offset).mrCount := by
  simp only [record_size, if_pos h]
  omega

theorem parse_invocation_capIncrOffset (data : Nat → Nat) (offset : Nat)
    (h : 1 < (parse_invocation data offset).iterations) :
    (parse_invocation data offset).capIncrOffset =
      offset + 2 + (parse_invocation data offset).capCount + (parse_invocation data offset).mrCount + 1 := by
  have h2 : 1 < (data offset >>> 32) + 1 := h
  simp only [parse_invocation, if_pos h2]

theorem parse_invocation_mrIncrOffset (data : Nat → Nat) (offset : Nat)
    (h : 1 < (parse_invocation data offset).iterations) :
    (parse_invocation data offset).mrIncrOffset =
      offset + 2 + (parse_invocation data offset).capCount + (parse_invocation data offset).mrCount + 1 +
        (parse_invocation data offset).capCount := by
  have h2 : 1 < (data offset >>> 32) + 1 := h
  simp only [parse_invocation, if_pos h2]

theorem parse_invocation_serviceIncr (data : Nat → Nat) (offset : Nat)
    (h : 1 < (parse_invocation data offset).iterations) :
    (parse_invocation data offset).serviceIncr =
      data (offset + 2 + (parse_invocation data offset).capCount + (parse_invocation data offset).mrCount) := by
  have h2 : 1 < (data offset >>> 32) + 1 := h
  simp only [parse_invocation, if_pos h2]

/-- Record parsing reads no word outside `[offset, offset + record_size)`:
two streams agreeing there parse identically. -/
theorem parse_invocation_frame (data data' : Nat → Nat) (offset : Nat)
    (h : ∀ n, offset ≤ n → n < offset + record_size data offset → data' n = data n) :
    parse_invocation data' offset = parse_invocation data offset := by
  have hge := record_size_ge data offset
  have h0 : data' offset = data offset := h offset le_rfl (by omega)
  have h1 : data' (offset + 1) = data (offset + 1) := h (offset + 1) (by omega) (by omega)
  have hcc : (parse_invocation data offset).capCount = msg_extraCaps (data offset &&& 0xffffffff) := rfl
  have hmc : (parse_invocation data offset).mrCount = msg_length (data offset &&& 0xffffffff) := rfl
  by_cases hit : 1 < (data offset >>> 32) + 1
  · have hrs := record_size_iterated data offset (by rw [parse_invocation_iterations]; exact hit)
    rw [hcc, hmc] at hrs
    have h2 : data' (offset + 2 + msg_extraCaps (data offset &&& 0xffffffff) +
          msg_length (data offset &&& 0xffffffff)) =
        data (offset + 2 + msg_extraCaps (data offset &&& 0xffffffff) +
          msg_length (data offset &&& 0xffffffff)) := by
      apply h _ (by omega)
      omega
    simp only [parse_invocation, h0, h1, h2]
  · simp only [parse_invocation, h0, h1, if_neg hit]

/-- Building the call for iteration `i < iterations` reads no word outside
the record. -/
theorem invocation_call_frame (data data' : Nat → Nat) (offset i : Nat)
    (h : ∀ n, offset ≤ n → n < offset + record_size data offset → data' n = data n)
    (hi : i < (parse_invocation data offset).iterations) :
    invocation_call data' offset i = invocation_call data offset i := by
  have hp := parse_invocation_frame data data' offset h
  have hcapOff := parse_invocation_capOffset data offset
  have hmrOff := parse_invocation_mrOffset data offset
  have hcap : ∀ j < (parse_invocation data offset).capCount,
      data' ((parse_invocation data offset).capOffset + j) =
        data ((parse_invocation data offset).capOffset + j) := by
    intro j hj
    have := record_size_ge data offset
    apply h _ (by omega)
    have : record_size data offset =
        2 + (parse_invocation data offset).capCount + (parse_invocation data offset).mrCount +
          (if 1 < (parse_invocation data offset).iterations then
            1 + (parse_invocation data offset).capCount + (parse_invocation data offset).mrCount
          else 0) := record_size_eq data offset
    have hite : 0 ≤ (if 1 < (parse_invocation data offset).iterations then
        1 + (parse_invocation data offset).capCount + (parse_invocation data offset).mrCount
      else 0) := Nat.zero_le _
    omega
  have hmr : ∀ j < (parse_invocation data offset).mrCount,
      data' ((parse_invocation data offset).mrOffset + j) =
        data ((parse_invocation data offset).mrOffset + j) := by
    intro j hj
    apply h _ (by omega)
    have : record_size data offset =
        2 + (parse_invocation data offset).capCount + (parse_invocation data offset).mrCount +
          (if 1 < (parse_invocation data offset).iterations then
            1 + (parse_invocation data offset).capCount + (parse_invocation data offset).mrCount
          else 0) := record_size_eq data offset
    have hite : 0 ≤ (if 1 < (parse_invocation data offset).iterations then
        1 + (parse_invocation data offset).capCount + (parse_invocation data offset).mrCount
      else 0) := Nat.zero_le _
    omega
  by_cases hpos : 0 < i
  · have hit : 1 < (parse_invocation data offset).iterations := by omega
    have hrs := record_size_iterated data offset hit
    have hcio := parse_invocation_capIncrOffset data offset hit
    have hmio := parse_invocation_mrIncrOffset data offset hit
    have hcapI : ∀ j < (parse_invocation data offset).capCount,
        data' ((parse_invocation data offset).capIncrOffset + j) =
          data ((parse_invocation data offset).capIncrOffset + j) := by
      intro j hj
      apply h _ (by omega)
      omega
    have hmrI : ∀ j < (parse_invocation data offset).mrCount,
        data' ((parse_invocation data offset).mrIncrOffset + j) =
          data ((parse_invocation data offset).mrIncrOffset + j) := by
      intro j hj
      apply h _ (by omega)
      omega
    simp only [invocation_call, hp]
    congr 1
    · exact List.map_congr_left fun j hj => by
        have hjlt := List.mem_range.mp hj
        simp only [if_pos hpos, hcap j hjlt, hcapI j hjlt]
    · exact List.map_congr_left fun j hj => by
        have hjlt := List.mem_range.mp hj
        simp only [if_pos hpos, hmr j hjlt, hmrI j hjlt]
  · have hz : i = 0 := by omega
    subst hz
    simp only [invocation_call, hp]
    congr 1
    · exact List.map_congr_left fun j hj => by
        have hjlt := List.mem_range.mp hj
        simp only [if_neg hpos, hcap j hjlt]
    · exact List.map_congr_left fun j hj => by
        have hjlt := List.mem_range.mp hj
        simp only [if_neg hpos, hmr j hjlt]

theorem run_calls_congr (oracle : KernelCall → Nat) (call call' : Nat → KernelCall) :
    ∀ n i, (∀ s, i ≤ s → s < i + n → call' s = call s) →
      run_calls oracle call' i n = run_calls oracle call i n := by
  intro n
  induction n with
  | zero => intro i _; rfl
  | succ n ih =>
    intro i h
    have h0 : call' i = call i := h i le_rfl (by omega)
    have hrec := ih (i + 1) (fun s hs1 hs2 => h s (by omega) (by omega))
    simp only [run_calls, h0, hrec]

/-- Lemma: `perform_invocation` reads no word outside `[offset, offset + record_size)`:
two streams agreeing there produce the same calls and the same outcome. -/
theorem perform_invocation_frame (oracle : KernelCall → Nat) (data data' : Nat → Nat)
    (offset idx : Nat)
    (h : ∀ n, offset ≤ n → n < offset + record_size data offset → data' n = data n) :
    perform_invocation oracle data' offset idx = perform_invocation oracle data offset idx := by
  have hp := parse_invocation_frame data data' offset h
  have hcalls : run_calls oracle (invocation_call data' offset) 0
      (parse_invocation data offset).iterations =
      run_calls oracle (invocation_call data offset) 0
        (parse_invocation data offset).iterations :=
    run_calls_congr oracle _ _ _ 0 fun s _ hs =>
      invocation_call_frame data data' offset s h (by omega)
  simp only [perform_invocation, hp, hcalls]

/-- The calls issued by a fully successful execution of one record. -/
def record_calls (data : Nat → Nat) (offset : Nat) : List KernelCall :=
  (List.range (parse_invocation data offset).iterations).map (invocation_call data offset)

/-- The calls issued by fully successful executions of `k` consecutive
records starting at `offset`. -/
def calls_of_records (data : Nat → Nat) (offset : Nat) : Nat → List KernelCall
  | 0 => []
  | k + 1 =>
    record_calls data offset ++
      calls_of_records data (parse_invocation data offset).nextOffset k

theorem perform_invocation_success (oracle : KernelCall → Nat) (data : Nat → Nat)
    (offset idx : Nat)
    (hunw : msg_capsUnwrapped (data offset &&& 0xffffffff) = 0)
    (hsucc : ∀ i < (parse_invocation data offset).iterations,
      oracle (invocation_call data offset i) = 0) :
    perform_invocation oracle data offset idx =
      { calls := record_calls data offset,
        outcome := .ok (offset + record_size data offset) } := by
  have hcond : ¬ msg_capsUnwrapped (parse_invocation data offset).tag0 ≠ 0 := by
    rw [parse_invocation_tag0, hunw]
    exact fun hc => hc rfl
  have hrc := run_calls_success oracle (invocation_call data offset)
    (parse_invocation data offset).iterations 0 (fun s _ hs => hsucc s (by omega))
  rw [← List.range_eq_range'] at hrc
  simp only [perform_invocation, if_neg hcond, hrc, record_calls,
    parse_invocation_nextOffset]

theorem perform_invocation_first_fail (oracle : KernelCall → Nat) (data : Nat → Nat)
    (offset idx t : Nat)
    (hunw : msg_capsUnwrapped (data offset &&& 0xffffffff) = 0)
    (ht : t < (parse_invocation data offset).iterations)
    (hpre : ∀ s < t, oracle (invocation_call data offset s) = 0)
    (hfail : oracle (invocation_call data offset t) ≠ 0) :
    perform_invocation oracle data offset idx =
      { calls := (List.range (t + 1)).map (invocation_call data offset),
        outcome := .failCall (oracle (invocation_call data offset t))
          (sel4_strerror (oracle (invocation_call data offset t))) idx t } := by
  have hcond : ¬ msg_capsUnwrapped (parse_invocation data offset).tag0 ≠ 0 := by
    rw [parse_invocation_tag0, hunw]
    exact fun hc => hc rfl
  have hrc := run_calls_first_fail oracle (invocation_call data offset)
    (parse_invocation data offset).iterations 0 t (Nat.zero_le t) (by omega)
    (fun s _ hs => hpre s hs) hfail
  rw [Nat.sub_zero, ← List.range_eq_range'] at hrc
  simp only [perform_invocation, if_neg hcond, hrc]

theorem perform_invocation_unwrapped (oracle : KernelCall → Nat) (data : Nat → Nat)
    (offset idx : Nat)
    (hunw : msg_capsUnwrapped (data offset &&& 0xffffffff) ≠ 0) :
    perform_invocation oracle data offset idx = { calls := [], outcome := .failUnwrapped } := by
  have hcond : msg_capsUnwrapped (parse_invocation data offset).tag0 ≠ 0 := by
    rw [parse_invocation_tag0]; exact hunw
  simp only [perform_invocation, if_pos hcond]

theorem run_invocations_success (oracle : KernelCall → Nat) (data : Nat → Nat) :
    ∀ count offset idx,
      (∀ k < count, msg_capsUnwrapped (data (offsetAfter data offset k) &&& 0xffffffff) = 0) →
      (∀ c, oracle c = 0) →
      run_invocations oracle data offset idx count =
        { calls := calls_of_records data offset count,
          outcome := .done (offsetAfter data offset count) } := by
  intro count
  induction count with
  | zero => intro offset idx _ _; rfl
  | succ count ih =>
    intro offset idx hwf hsucc
    have hwf0 : msg_capsUnwrapped (data offset &&& 0xffffffff) = 0 := hwf 0 (by omega)
    have hperf := perform_invocation_success oracle data offset idx hwf0
      (fun i _ => hsucc _)
    have hrec := ih (parse_invocation data offset).nextOffset (idx + 1)
      (fun k hk => hwf (k + 1) (by omega)) hsucc
    rw [parse_invocation_nextOffset] at hrec
    simp only [run_invocations, hperf, hrec, calls_of_records, offsetAfter,
      parse_invocation_nextOffset]

theorem run_invocations_prefix (oracle : KernelCall → Nat) (data : Nat → Nat) :
    ∀ k count offset idx,
      (∀ j < k, msg_capsUnwrapped (data (offsetAfter data offset j) &&& 0xffffffff) = 0) →
      (∀ j < k, ∀ i < (parse_invocation data (offsetAfter data offset j)).iterations,
        oracle (invocation_call data (offsetAfter data offset j) i) = 0) →
      run_invocations oracle data offset idx (k + count) =
        { calls := calls_of_records data offset k ++
            (run_invocations oracle data (offsetAfter data offset k) (idx + k) count).calls,
          outcome := (run_invocations oracle data (offsetAfter data offset k) (idx + k) count).outcome } := by
  intro k
  induction k with
  | zero => intro count offset idx _ _; simp [calls_of_records, offsetAfter]
  | succ k ih =>
    intro count offset idx hwf hbefore
    have hwf0 : msg_capsUnwrapped (data offset &&& 0xffffffff) = 0 := hwf 0 (by omega)
    have hperf := perform_invocation_success oracle data offset idx hwf0
      (fun i hi => hbefore 0 (by omega) i hi)
    have hrec := ih count (parse_invocation data offset).nextOffset (idx + 1)
      (fun j hj => hwf (j + 1) (by omega))
      (fun j hj => hbefore (j + 1) (by omega))
    rw [parse_invocation_nextOffset] at hrec
    have hidx : idx + 1 + k = idx + (k + 1) := by omega
    rw [hidx] at hrec
    have hcnt : k + 1 + count = (k + count) + 1 := by omega
    rw [hcnt]
    simp only [run_invocations, hperf, hrec, calls_of_records, offsetAfter,
      parse_invocation_nextOffset, List.append_assoc]

/-! ## Manifest-checker lemmas -/

/-- All three fields of region `j` agree between the embedded manifest and
the boot info. -/
def region_fields_match (ui : UntypedInfo) (bi : BootInfo) (j : Nat) : Prop :=
  (ui.regions j).paddr = (bi.untypedList j).paddr ∧
  (ui.regions j).size_bits = (bi.untypedList j).size_bits ∧
  (ui.regions j).is_device = (bi.untypedList j).is_device

theorem check_untypeds_regions_iff (ui : UntypedInfo) (bi : BootInfo) (n : Nat) :
    ∀ i, (check_untypeds_regions ui bi i n = true ↔
      ∀ j, i ≤ j → j < n → region_fields_match ui bi j) := by
  have key : ∀ m i, n - i ≤ m →
      (check_untypeds_regions ui bi i n = true ↔
        ∀ j, i ≤ j → j < n → region_fields_match ui bi j) := by
    intro m
    induction m with
    | zero =>
      intro i hm
      have hni : ¬ i < n := by omega
      rw [check_untypeds_regions, if_neg hni]
      constructor
      · intro _ j hj1 hj2
        omega
      · intro _
        rfl
    | succ m ih =>
      intro i hm
      rw [check_untypeds_regions]
      by_cases hin : i < n
      · rw [if_pos hin]
        by_cases h1 : (ui.regions i).paddr ≠ (bi.untypedList i).paddr
        · rw [if_pos h1]
          simp only [Bool.false_eq_true, false_iff]
          intro hall
          exact h1 (hall i le_rfl hin).1
        · rw [if_neg h1]
          push_neg at h1
          by_cases h2 : (ui.regions i).size_bits ≠ (bi.untypedList i).size_bits
          · rw [if_pos h2]
            simp only [Bool.false_eq_true, false_iff]
            intro hall
            exact h2 (hall i le_rfl hin).2.1
          · rw [if_neg h2]
            push_neg at h2
            by_cases h3 : (ui.regions i).is_device ≠ (bi.untypedList i).is_device
            · rw [if_pos h3]
              simp only [Bool.false_eq_true, false_iff]
              intro hall
              exact h3 (hall i le_rfl hin).2.2
            · rw [if_neg h3]
              push_neg at h3
              rw [ih (i + 1) (by omega)]
              constructor
              · intro hall j hj1 hj2
                by_cases hji : j = i
                · subst hji
                  exact ⟨h1, h2, h3⟩
                · exact hall j (by omega) hj2
              · intro hall j hj1 hj2
                exact hall j (by omega) hj2
      · rw [if_neg hin]
        constructor
        · intro _ j hj1 hj2
          omega
        · intro _
          rfl
  intro i
  exact key (n - i) i le_rfl

/-- C4: the untyped-manifest checker returns failure if and only if the
embedded `cap_start` differs from the boot-info untyped start, or the
embedded `cap_end` differs from the boot-info untyped end, or some region
index below `cap_end - cap_start` has a physical address, size-class or
device flag differing between the embedded manifest and the kernel-reported
region at the same index; and it returns success if and only if all those
fields match.  (`cap_start ≤ cap_end` restricts to the domain on which the
C unsigned loop bound `cap_end - cap_start` is meaningful.) -/
theorem check_untypeds_match_iff (ui : UntypedInfo) (bi : BootInfo)
    (hle : ui.cap_start ≤ ui.cap_end) :
    (check_untypeds_match ui bi = false ↔
      ui.cap_start ≠ bi.untyped_start ∨ ui.cap_end ≠ bi.untyped_end ∨
      ∃ i < ui.cap_end - ui.cap_start,
        (ui.regions i).paddr ≠ (bi.untypedList i).paddr ∨
        (ui.regions i).size_bits ≠ (bi.untypedList i).size_bits ∨
        (ui.regions i).is_device ≠ (bi.untypedList i).is_device) ∧
    (check_untypeds_match ui bi = true ↔
      ui.cap_start = bi.untyped_start ∧ ui.cap_end = bi.untyped_end ∧
      ∀ i < ui.cap_end - ui.cap_start, region_fields_match ui bi i) := by
  have htrue : check_untypeds_match ui bi = true ↔
      ui.cap_start = bi.untyped_start ∧ ui.cap_end = bi.untyped_end ∧
      ∀ i < ui.cap_end - ui.cap_start, region_fields_match ui bi i := by
    unfold check_untypeds_match
    by_cases hs : ui.cap_start ≠ bi.untyped_start
    · rw [if_pos hs]
      simp only [Bool.false_eq_true, false_iff]
      intro hall
      exact hs hall.1
    · rw [if_neg hs]
      push_neg at hs
      by_cases he : ui.cap_end ≠ bi.untyped_end
      · rw [if_pos he]
        simp only [Bool.false_eq_true, false_iff]
        intro hall
        exact he hall.2.1
      · rw [if_neg he]
        push_neg at he
        rw [check_untypeds_regions_iff ui bi (ui.cap_end - ui.cap_start) 0]
        constructor
        · intro hall
          exact ⟨hs, he, fun i hi => hall i (Nat.zero_le i) hi⟩
        · intro hall j _ hj
          exact hall.2.2 j hj
  have hnot : check_untypeds_match ui bi = false ↔ ¬ check_untypeds_match ui bi = true := by
    cases h : check_untypeds_match ui bi <;> simp
  refine ⟨?_, htrue⟩
  rw [hnot, htrue]
  constructor
  · intro hneg
    by_cases hs : ui.cap_start = bi.untyped_start
    · by_cases he : ui.cap_end = bi.untyped_end
      · right; right
        have hnall : ¬ ∀ i < ui.cap_end - ui.cap_start, region_fields_match ui bi i := by
          intro hall
          exact hneg ⟨hs, he, hall⟩
        push_neg at hnall
        obtain ⟨i, hi, hne⟩ := hnall
        refine ⟨i, hi, ?_⟩
        by_cases h1 : (ui.regions i).paddr = (bi.untypedList i).paddr
        · by_cases h2 : (ui.regions i).size_bits = (bi.untypedList i).size_bits
          · right; right
            intro h3
            exact hne ⟨h1, h2, h3⟩
          · right; left; exact h2
        · left; exact h1
      · right; left; exact he
    · left; exact hs
  · intro hdisj hall
    obtain ⟨hs, he, hreg⟩ := hall
    rcases hdisj with h | h | ⟨i, hi, h⟩
    · exact h hs
    · exact h he
    · rcases h with h | h | h
      · exact h (hreg i hi).1
      · exact h (hreg i hi).2.1
      · exact h (hreg i hi).2.2

/-- C4 witness: the spec's example.  Embedded manifest with one region
`{0x1000, 12, normal}` over cap range `[10, 11)` matches identical boot
info; changing the boot-reported size class to 13 makes the checker fail. -/
theorem check_untypeds_match_iff_witness :
    check_untypeds_match
      { cap_start := 10, cap_end := 11, regions := fun _ => ⟨0x1000, 12, 0⟩ }
      { untyped_start := 10, untyped_end := 11, untypedList := fun _ => ⟨0x1000, 12, 0⟩ } = true ∧
    check_untypeds_match
      { cap_start := 10, cap_end := 11, regions := fun _ => ⟨0x1000, 12, 0⟩ }
      { untyped_start := 10, untyped_end := 11, untypedList := fun _ => ⟨0x1000, 13, 0⟩ } = false := by
  constructor
  · exact (check_untypeds_match_iff
      { cap_start := 10, cap_end := 11, regions := fun _ => ⟨0x1000, 12, 0⟩ }
      { untyped_start := 10, untyped_end := 11, untypedList := fun _ => ⟨0x1000, 12, 0⟩ }
      (by decide)).2.2 ⟨rfl, rfl, fun i _ => ⟨rfl, rfl, rfl⟩⟩
  · exact (check_untypeds_match_iff
      { cap_start := 10, cap_end := 11, regions := fun _ => ⟨0x1000, 12, 0⟩ }
      { untyped_start := 10, untyped_end := 11, untypedList := fun _ => ⟨0x1000, 13, 0⟩ }
      (by decide)).1.2 (Or.inr (Or.inr ⟨0, by decide, Or.inr (Or.inl (by decide))⟩))

/-- C9: every fault-decoder table function is total: for every numeric code,
including codes with no table entry, it returns a defined non-empty string,
and every unmapped code yields the table's generic fallback string.  The
decoders are plain total Lean functions, so they cannot halt, crash or
raise. -/
theorem fault_decoders_total :
    (∀ cheri fsr, riscv_fsr_to_string cheri fsr ≠ "") ∧
    (∀ ec, ec_to_string ec ≠ "") ∧
    (∀ dfsc, data_abort_dfsc_to_string dfsc ≠ "") ∧
    (∀ t, riscv_fsr_cheri_type_to_string t ≠ "") ∧
    (∀ c, usban_code_to_string c ≠ "") ∧
    (∀ err, sel4_strerror err ≠ "") ∧
    (∀ (cheri : Bool) fsr, ¬ (cheri = true ∧ (fsr >>> 11) &&& 1 = 1) → fsr ∉ riscv_fsr_known →
      riscv_fsr_to_string cheri fsr = "<Unexpected FSR>") ∧
    (∀ ec, ec ∉ ec_known → ec_to_string ec = "<invalid EC>") ∧
    (∀ dfsc, dfsc ∉ dfsc_known → data_abort_dfsc_to_string dfsc = "<unexpected DFSC>") := by
  refine ⟨?_, ?_, ?_, ?_, ?_, ?_, ?_, ?_, ?_⟩
  · intro cheri fsr
    unfold riscv_fsr_to_string
    split
    · split <;> decide
    · split <;> decide
  · intro ec
    unfold ec_to_string
    split <;> decide
  · intro dfsc
    unfold data_abort_dfsc_to_string
    split <;> decide
  · intro t
    unfold riscv_fsr_cheri_type_to_string
    split <;> decide
  · intro c
    unfold usban_code_to_string
    split <;> decide
  · intro err
    unfold sel4_strerror
    split <;> decide
  · intro cheri fsr hnc hmem
    unfold riscv_fsr_to_string
    rw [if_neg hnc]
    split <;> first
      | rfl
      | (subst_vars; exact absurd (by decide) hmem)
  · intro ec hmem
    unfold ec_to_string
    split <;> first
      | rfl
      | (subst_vars; exact absurd (by decide) hmem)
  · intro dfsc hmem
    unfold data_abort_dfsc_to_string
    split <;> first
      | rfl
      | (subst_vars; exact absurd (by decide) hmem)

/-- C9 witness: concrete unmapped codes hit each fallback, and a mapped and
a CHERI-path code decode to non-empty strings. -/
theorem fault_decoders_total_witness :
    riscv_fsr_to_string false 11 = "<Unexpected FSR>" ∧
    ec_to_string 2 = "<invalid EC>" ∧
    data_abort_dfsc_to_string 8 = "<unexpected DFSC>" ∧
    riscv_fsr_to_string true 2052 ≠ "" := by
  refine ⟨?_, ?_, ?_, ?_⟩
  · exact fault_decoders_total.2.2.2.2.2.2.1 false 11 (by decide) (by decide)
  · exact fault_decoders_total.2.2.2.2.2.2.2.1 2 (by decide)
  · exact fault_decoders_total.2.2.2.2.2.2.2.2 8 (by decide)
  · exact fault_decoders_total.1 true 2052

/-! ## Claim theorems for the invocation executor and script runner -/

/-- C2: for every well-formed invocation stream (each reached record's tag
reports zero unwrapped capabilities) in which every kernel call returns
success, running the script runner over a buffer with a given `count`
consumes exactly `count` records starting at offset 0 and finishes; each
executor call returns precisely the next record's offset,
`offset + 2 + cap_count + mr_count` words for a single-iteration record
plus `1 + cap_count + mr_count` stride words when the iteration count
exceeds one; and no word before or past a record is read while executing
it (streams agreeing on the record's words execute it identically). -/
theorem script_runner_exact_consumption (oracle : KernelCall → Nat) (data : Nat → Nat)
    (count : Nat)
    (hwf : ∀ k < count, msg_capsUnwrapped (data (offsetAfter data 0 k) &&& 0xffffffff) = 0)
    (hsucc : ∀ c, oracle c = 0) :
    (run_invocations oracle data 0 0 count =
      { calls := calls_of_records data 0 count,
        outcome := .done (offsetAfter data 0 count) }) ∧
    (∀ k < count,
      (perform_invocation oracle data (offsetAfter data 0 k) k).outcome =
        .ok (offsetAfter data 0 k +
          (2 + (parse_invocation data (offsetAfter data 0 k)).capCount +
            (parse_invocation data (offsetAfter data 0 k)).mrCount +
            (if 1 < (parse_invocation data (offsetAfter data 0 k)).iterations then
              1 + (parse_invocation data (offsetAfter data 0 k)).capCount +
                (parse_invocation data (offsetAfter data 0 k)).mrCount
            else 0)))) ∧
    (∀ offset idx data2,
      (∀ n, offset ≤ n → n < offset + record_size data offset → data2 n = data n) →
      perform_invocation oracle data2 offset idx = perform_invocation oracle data offset idx) := by
  refine ⟨run_invocations_success oracle data count 0 0 hwf hsucc, ?_, ?_⟩
  · intro k hk
    have hperf := perform_invocation_success oracle data (offsetAfter data 0 k) k
      (hwf k hk) (fun i _ => hsucc _)
    rw [hperf]
    rw [record_size_eq]
  · intro offset idx data2 hagree
    exact perform_invocation_frame oracle data data2 offset idx hagree

/-- C2 witness: a two-record stream of minimal records (header 0: one
iteration, no capabilities, no message words) is consumed exactly, ending
at offset 4. -/
theorem script_runner_exact_consumption_witness :
    (run_invocations (fun _ => 0) (fun _ => 0) 0 0 2).outcome = .done 4 := by
  have h := script_runner_exact_consumption (fun _ => 0) (fun _ => 0) 2
    (fun k _ => by simp [msg_capsUnwrapped]) (fun _ => rfl)
  rw [h.1]
  rfl

theorem w64_mul_zero (x y : Nat) (hx : x < W64) : w64 (x + y * 0) = x := by
  simp only [Nat.mul_zero, Nat.add_zero, w64]
  exact Nat.mod_eq_of_lt hx

/-- C1: for a record with iteration count `N > 1` all of whose calls
succeed, the `i`-th issued kernel call (for every `0 ≤ i < N`) targets
`base + stride*i` (64-bit wrapping) and loads, for every capability slot
and message register, the slot's base word plus its stride word times `i`;
at `i = 0` this is exactly the base value (the words being 64-bit,
`hb`). -/
theorem iterated_invocation_values (oracle : KernelCall → Nat) (data : Nat → Nat)
    (offset idx : Nat)
    (hb : ∀ n, data n < W64)
    (hN : 1 < (parse_invocation data offset).iterations)
    (hunw : msg_capsUnwrapped (data offset &&& 0xffffffff) = 0)
    (hsucc : ∀ i < (parse_invocation data offset).iterations,
      oracle (invocation_call data offset i) = 0) :
    (perform_invocation oracle data offset idx).calls.length =
      (parse_invocation data offset).iterations ∧
    ∀ i < (parse_invocation data offset).iterations,
      ∃ c, (perform_invocation oracle data offset idx).calls[i]? = some c ∧
        c.service = w64 (data (offset + 1) + (parse_invocation data offset).serviceIncr * i) ∧
        c.tag = data offset &&& 0xffffffff ∧
        c.caps.length = (parse_invocation data offset).capCount ∧
        (∀ j < (parse_invocation data offset).capCount,
          c.caps[j]? = some (w64 (data ((parse_invocation data offset).capOffset + j) +
            data ((parse_invocation data offset).capIncrOffset + j) * i))) ∧
        c.mrs.length = (parse_invocation data offset).mrCount ∧
        (∀ j < (parse_invocation data offset).mrCount,
          c.mrs[j]? = some (w64 (data ((parse_invocation data offset).mrOffset + j) +
            data ((parse_invocation data offset).mrIncrOffset + j) * i))) := by
  have hperf := perform_invocation_success oracle data offset idx hunw hsucc
  rw [hperf]
  constructor
  · simp [record_calls]
  · intro i hi
    refine ⟨invocation_call data offset i, ?_, ?_, rfl, ?_, ?_, ?_, ?_⟩
    · simp [record_calls, List.getElem?_map, List.getElem?_range, hi]
    · by_cases hpos : 0 < i
      · simp only [invocation_call, if_pos hpos, parse_invocation_service]
      · have hz : i = 0 := by omega
        subst hz
        simp only [invocation_call, Nat.lt_irrefl, if_false]
        rw [w64_mul_zero _ _ (hb (offset + 1))]
        exact parse_invocation_service data offset
    · simp [invocation_call]
    · intro j hj
      have hc : (invocation_call data offset i).caps[j]? =
          some (if 0 < i then
            w64 (data ((parse_invocation data offset).capOffset + j) +
              data ((parse_invocation data offset).capIncrOffset + j) * i)
          else data ((parse_invocation data offset).capOffset + j)) := by
        simp [invocation_call, List.getElem?_map, List.getElem?_range, hj]
      rw [hc]
      by_cases hpos : 0 < i
      · rw [if_pos hpos]
      · have hz : i = 0 := by omega
        subst hz
        rw [if_neg hpos, w64_mul_zero _ _ (hb _)]
    · simp [invocation_call]
    · intro j hj
      have hm : (invocation_call data offset i).mrs[j]? =
          some (if 0 < i then
            w64 (data ((parse_invocation data offset).mrOffset + j) +
              data ((parse_invocation data offset).mrIncrOffset + j) * i)
          else data ((parse_invocation data offset).mrOffset + j)) := by
        simp [invocation_call, List.getElem?_map, List.getElem?_range, hj]
      rw [hm]
      by_cases hpos : 0 < i
      · rw [if_pos hpos]
      · have hz : i = 0 := by omega
        subst hz
        rw [if_neg hpos, w64_mul_zero _ _ (hb _)]

/-- The spec's worked example stream: header encodes iterations = 3 and tag
word 5 (five message words, no capabilities), base target 100, target
stride 10, message bases 11..15 with strides 1..5. -/
def exampleIteratedStream : Nat → Nat
  | 0 => 0x200000005
  | 1 => 100
  | 2 => 11
  | 3 => 12
  | 4 => 13
  | 5 => 14
  | 6 => 15
  | 7 => 10
  | 8 => 1
  | 9 => 2
  | 10 => 3
  | 11 => 4
  | 12 => 5
  | _ => 0

/-- C1 witness: on the example stream the third issued call (`i = 2`)
targets `100 + 10*2 = 120` and its first message register holds
`11 + 1*2 = 13`. -/
theorem iterated_invocation_values_witness :
    ∃ c, (perform_invocation (fun _ => 0) exampleIteratedStream 0 0).calls[2]? = some c ∧
      c.service = 120 ∧ c.mrs[0]? = some 13 := by
  have hb : ∀ n, exampleIteratedStream n < W64 := by
    intro n
    unfold exampleIteratedStream
    split <;> decide
  have h := iterated_invocation_values (fun _ => 0) exampleIteratedStream 0 0 hb
    (by decide) (by decide) (fun i _ => rfl)
  obtain ⟨c, hc, hserv, _, _, _, _, hmr⟩ := h.2 2 (by decide)
  refine ⟨c, hc, ?_, ?_⟩
  · rw [hserv]; decide
  · rw [hmr 0 (by decide)]; decide

/-- C3 counterexample: for the record with header word 0 (iteration-count
field 0 in the high 32 bits, tag 0), the executor issues one kernel call,
not zero: the number of calls is NOT the high-bits field. -/
theorem header_iterations_counterexample :
    (perform_invocation (fun _ => 0) (fun _ => 0) 0 0).calls.length = 1 ∧
    ((fun _ => (0 : Nat)) 0) >>> 32 = 0 ∧
    (perform_invocation (fun _ => 0) (fun _ => 0) 0 0).calls.length ≠
      ((fun _ => (0 : Nat)) 0) >>> 32 := by
  refine ⟨by decide, by decide, by decide⟩

/-- C3 amended: for a record all of whose calls succeed, the number of
kernel calls issued is the header's high-32-bit field PLUS ONE (the field
stores `iterations - 1`), and the message tag word used by every call of
the record is the header's low 32 bits. -/
theorem header_iterations_and_tag (oracle : KernelCall → Nat) (data : Nat → Nat)
    (offset idx : Nat)
    (hunw : msg_capsUnwrapped (data offset &&& 0xffffffff) = 0)
    (hsucc : ∀ i < (parse_invocation data offset).iterations,
      oracle (invocation_call data offset i) = 0) :
    (perform_invocation oracle data offset idx).calls.length = (data offset >>> 32) + 1 ∧
    ∀ c ∈ (perform_invocation oracle data offset idx).calls,
      c.tag = data offset &&& 0xffffffff := by
  have hperf := perform_invocation_success oracle data offset idx hunw hsucc
  rw [hperf]
  constructor
  · simp [record_calls, parse_invocation_iterations]
  · intro c hcmem
    simp only [record_calls, List.mem_map, List.mem_range] at hcmem
    obtain ⟨i, _, rfl⟩ := hcmem
    rfl

/-- C3 amended witness: the all-zero record issues `(0 >>> 32) + 1 = 1`
call. -/
theorem header_iterations_and_tag_witness :
    (perform_invocation (fun _ => 0) (fun _ => 0) 0 0).calls.length = 1 := by
  have h := header_iterations_and_tag (fun _ => 0) (fun _ => 0) 0 0
    (by decide) (fun i _ => rfl)
  rw [h.1]
  rfl

/-- C5: when every record before `k` succeeds and record `k`'s call at
iteration `t` is the first to return a non-success label `e`, the run
halts with the diagnostic carrying the numeric code `e`, its symbolic
name `sel4_strerror e`, the top-level index `k` and the iteration
sub-index `t`; the trace ends at that call (no later iteration of record
`k` and nothing from any record after `k`), and the outcome is never
`done` — in the C code `fail` loops forever, so the executor never
returns. -/
theorem invocation_failure_halts (oracle : KernelCall → Nat) (data : Nat → Nat)
    (count k t e : Nat)
    (hk : k < count)
    (hwf : ∀ j ≤ k, msg_capsUnwrapped (data (offsetAfter data 0 j) &&& 0xffffffff) = 0)
    (hbefore : ∀ j < k, ∀ i < (parse_invocation data (offsetAfter data 0 j)).iterations,
      oracle (invocation_call data (offsetAfter data 0 j) i) = 0)
    (ht : t < (parse_invocation data (offsetAfter data 0 k)).iterations)
    (hpre : ∀ s < t, oracle (invocation_call data (offsetAfter data 0 k) s) = 0)
    (hfail : oracle (invocation_call data (offsetAfter data 0 k) t) = e)
    (hne : e ≠ 0) :
    run_invocations oracle data 0 0 count =
      { calls := calls_of_records data 0 k ++
          (List.range (t + 1)).map (invocation_call data (offsetAfter data 0 k)),
        outcome := .haltedCall e (sel4_strerror e) k t } ∧
    ∀ f, RunOutcome.haltedCall e (sel4_strerror e) k t ≠ .done f := by
  refine ⟨?_, fun f h => RunOutcome.noConfusion h⟩
  have hsplit := run_invocations_prefix oracle data k (count - k) 0 0
    (fun j hj => hwf j (by omega)) hbefore
  have hfailrec := perform_invocation_first_fail oracle data (offsetAfter data 0 k) (0 + k) t
    (hwf k le_rfl) ht hpre (by rw [hfail]; exact hne)
  rw [hfail] at hfailrec
  have hcnt2 : count - k = (count - k - 1) + 1 := by omega
  have hrunk : run_invocations oracle data (offsetAfter data 0 k) (0 + k) (count - k) =
      { calls := (List.range (t + 1)).map (invocation_call data (offsetAfter data 0 k)),
        outcome := .haltedCall e (sel4_strerror e) (0 + k) t } := by
    rw [hcnt2, run_invocations, hfailrec]
  have hck : count = k + (count - k) := by omega
  rw [hck] at hk ⊢
  rw [hsplit, hrunk]
  simp

/-- C5 witness: a two-record stream whose first record's only call returns
error 3 halts with `seL4_IllegalOperation` at invocation 0, iteration 0. -/
theorem invocation_failure_halts_witness :
    (run_invocations (fun _ => 3) (fun _ => 0) 0 0 2).outcome =
      .haltedCall 3 "seL4_IllegalOperation" 0 0 := by
  have h := invocation_failure_halts (fun _ => 3) (fun _ => 0) 2 0 0 3
    (by decide) (fun j _ => by simp [msg_capsUnwrapped])
    (fun j hj => absurd hj (by omega))
    (by decide) (fun s hs => absurd hs (by omega)) rfl (by decide)
  rw [h.1]
  rfl

/-- C6: when the records before `k` all succeed and record `k`'s tag
reports a nonzero count of unwrapped capabilities, the executor hits
`fail` before issuing any kernel call for record `k` (its call list is
empty, so no capability or message transfer slot is written for it —
`seL4_SetCap`/`seL4_SetMR` happen only inside the iteration loop, which
is never entered) and the run halts: no iteration of record `k` and no
record after `k` executes. -/
theorem unwrapped_caps_fatal (oracle : KernelCall → Nat) (data : Nat → Nat)
    (count k : Nat)
    (hk : k < count)
    (hwf : ∀ j < k, msg_capsUnwrapped (data (offsetAfter data 0 j) &&& 0xffffffff) = 0)
    (hbefore : ∀ j < k, ∀ i < (parse_invocation data (offsetAfter data 0 j)).iterations,
      oracle (invocation_call data (offsetAfter data 0 j) i) = 0)
    (hunw : msg_capsUnwrapped (data (offsetAfter data 0 k) &&& 0xffffffff) ≠ 0) :
    perform_invocation oracle data (offsetAfter data 0 k) k =
      { calls := [], outcome := .failUnwrapped } ∧
    run_invocations oracle data 0 0 count =
      { calls := calls_of_records data 0 k, outcome := .haltedUnwrapped k } := by
  refine ⟨perform_invocation_unwrapped oracle data (offsetAfter data 0 k) k hunw, ?_⟩
  have hsplit := run_invocations_prefix oracle data k (count - k) 0 0 hwf hbefore
  have hfailrec := perform_invocation_unwrapped oracle data (offsetAfter data 0 k) (0 + k) hunw
  have hcnt2 : count - k = (count - k - 1) + 1 := by omega
  have hrunk : run_invocations oracle data (offsetAfter data 0 k) (0 + k) (count - k) =
      { calls := [], outcome := .haltedUnwrapped (0 + k) } := by
    rw [hcnt2, run_invocations, hfailrec]
  have hck : count = k + (count - k) := by omega
  rw [hck] at hk ⊢
  rw [hsplit, hrunk]
  simp

/-- C6 witness: a single record whose header sets an unwrapped-capability
bit (tag word `0x200`) halts the run immediately with no calls issued. -/
theorem unwrapped_caps_fatal_witness :
    run_invocations (fun _ => 0) (fun _ => 0x200) 0 0 1 =
      { calls := [], outcome := .haltedUnwrapped 0 } := by
  have h := unwrapped_caps_fatal (fun _ => 0) (fun _ => 0x200) 1 0
    (by decide) (fun j hj => absurd hj (by omega)) (fun j hj => absurd hj (by omega))
    (by decide)
  rw [h.2]
  rfl

/-! ## Claim theorems for the fault-monitor loop -/

/-- C8: a message with the null-fault label and a valid badge takes the
passivation path: the monitor unbinds the component's scheduling context
from its TCB, binds it to the component's notification object, logs the
outcome (an error line when the bind call fails, a passive line when it
succeeds), and returns to the blocking receive — it never halts on this
path and never reads the faulting thread's registers. -/
theorem passivation_request_never_halts (env : MonitorEnv) (orc : MonitorOracle)
    (label badge : Nat)
    (hlabel : label = seL4_Fault_NullFault) (hbadge : badge < MAX_PDS)
    (hname : env.pd_names badge ≠ "") :
    (monitor_step env orc label badge).outcome = .next ∧
    (monitor_step env orc label badge).unbindIssued =
      some (env.scheduling_contexts badge, env.pd_tcbs badge) ∧
    (monitor_step env orc label badge).bindIssued =
      some (env.scheduling_contexts badge, env.notification_caps badge) ∧
    (monitor_step env orc label badge).readRegistersAttempted = false ∧
    (orc.bindResult ≠ seL4_NoError → (monitor_step env orc label badge).log =
      ["MON|ERROR: could not bind scheduling context to notification object"]) ∧
    (orc.bindResult = seL4_NoError → (monitor_step env orc label badge).log =
      ["MON|INFO: PD " ++ env.pd_names badge ++ " is now passive!"]) := by
  have hcond : label = seL4_Fault_NullFault ∧ badge < MAX_PDS := ⟨hlabel, hbadge⟩
  unfold monitor_step
  rw [if_pos hcond]
  refine ⟨rfl, rfl, rfl, rfl, ?_, ?_⟩
  · intro hbind
    rw [if_pos hbind]
  · intro hbind
    rw [if_neg (by rw [hbind]; exact fun hc => hc rfl)]

/-- An environment whose name slots are all empty (and all capability
words zero), used as a concrete monitor configuration. -/
def emptyNamesEnv : MonitorEnv :=
  { pd_tcbs := fun _ => 0, scheduling_contexts := fun _ => 0,
    notification_caps := fun _ => 0, pd_names := fun _ => "",
    pd_stack_addrs := fun _ => 0 }

/-- C8 witness: with badge 0 named "client", the passivation step returns
to waiting both when the bind call fails (result 1) and when it succeeds
(result 0). -/
theorem passivation_request_never_halts_witness :
    (monitor_step
      { emptyNamesEnv with pd_names := fun _ => "client" }
      { unbindResult := 0, bindResult := 1, readRegsResult := 0 }
      0 0).outcome = .next ∧
    (monitor_step
      { emptyNamesEnv with pd_names := fun _ => "client" }
      { unbindResult := 0, bindResult := 0, readRegsResult := 0 }
      0 0).outcome = .next := by
  constructor
  · exact (passivation_request_never_halts
      { emptyNamesEnv with pd_names := fun _ => "client" }
      { unbindResult := 0, bindResult := 1, readRegsResult := 0 }
      0 0 rfl (by decide) (by decide)).1
  · exact (passivation_request_never_halts
      { emptyNamesEnv with pd_names := fun _ => "client" }
      { unbindResult := 0, bindResult := 0, readRegsResult := 0 }
      0 0 rfl (by decide) (by decide)).1

/-- C7 counterexample: a message with the null-fault label and badge 0
whose name slot is EMPTY — an invalid badge by the claim's definition —
does not halt: the passivation path is taken (it tests only
`badge < MAX_PDS`, never the name slot) and the loop returns to waiting. -/
theorem invalid_badge_halts_counterexample :
    emptyNamesEnv.pd_names 0 = "" ∧
    (monitor_step emptyNamesEnv
      { unbindResult := 0, bindResult := 0, readRegsResult := 0 }
      seL4_Fault_NullFault 0).outcome = .next := by
  exact ⟨rfl, rfl⟩

/-- C7 amended: every message that does NOT take the passivation branch
(label ≠ null-fault, or badge ≥ MAX_PDS) and whose badge is invalid —
badge ≥ MAX_PDS or an empty name slot — halts the loop without attempting
to read the faulting thread's registers; a null-fault message with badge
< MAX_PDS, however, is handled on the passivation path and never halts,
even when its name slot is empty. -/
theorem invalid_badge_halts (env : MonitorEnv) (orc : MonitorOracle)
    (label badge : Nat)
    (hnp : ¬ (label = seL4_Fault_NullFault ∧ badge < MAX_PDS))
    (hinv : MAX_PDS ≤ badge ∨ env.pd_names badge = "") :
    ((monitor_step env orc label badge).outcome =
      .halted "MON|ERROR: unknown/invalid badge" ∧
    (monitor_step env orc label badge).readRegistersAttempted = false) ∧
    ∀ b2, b2 < MAX_PDS →
      (monitor_step env orc seL4_Fault_NullFault b2).outcome = .next := by
  have hvalid : ¬ (badge < MAX_PDS ∧ env.pd_names badge ≠ "") := by
    rcases hinv with h | h
    · exact fun hc => by omega
    · exact fun hc => hc.2 h
  constructor
  · rw [monitor_step, if_neg hnp, if_neg hvalid]
    exact ⟨rfl, rfl⟩
  · intro b2 hb2
    rw [monitor_step, if_pos ⟨rfl, hb2⟩]

/-- C7 witness: a fault-labelled message with the out-of-range badge 64
halts without a register read. -/
theorem invalid_badge_halts_witness :
    (monitor_step emptyNamesEnv
      { unbindResult := 0, bindResult := 0, readRegsResult := 0 }
      5 64).outcome = .halted "MON|ERROR: unknown/invalid badge" ∧
    (monitor_step emptyNamesEnv
      { unbindResult := 0, bindResult := 0, readRegsResult := 0 }
      5 64).readRegistersAttempted = false :=
  (invalid_badge_halts emptyNamesEnv
    { unbindResult := 0, bindResult := 0, readRegsResult := 0 }
    5 64 (by decide) (Or.inl (by decide))).1

/-- C10: the monitor loop reads `pd_tcbs[badge]` at the raw badge
immediately after the receive and before any validation, for every
message; at badge `MAX_PDS = 64` — a value the loop's own later check
`badge < MAX_PDS` treats as possible and invalid — the read index is 64,
one past the end of the 64-entry `pd_tcbs` array, so the access is NOT
within bounds for every badge the message can carry. -/
theorem tcb_read_before_validation :
    (∀ env orc label badge, (monitor_step env orc label badge).tcbReadIndex = badge) ∧
    (monitor_step emptyNamesEnv
      { unbindResult := 0, bindResult := 0, readRegsResult := 0 }
      5 64).tcbReadIndex = 64 ∧
    pd_tcbs_len ≤ (monitor_step emptyNamesEnv
      { unbindResult := 0, bindResult := 0, readRegsResult := 0 }
      5 64).tcbReadIndex := by
  refine ⟨?_, rfl, by decide⟩
  intro env orc label badge
  rw [monitor_step]
  split_ifs <;> rfl
